import Mathlib

/-!
Verification of the WebThingsIO/cli command-line client.

Shallow embedding of the three source modules:
* `cli/gateway.py` — `GatewayConfig` (the persisted session, a JSON tree with a
  dirty flag and a selected sub-scope `root`) and `Gateway` (the authenticated
  HTTP client with its 401/login retry loops);
* `cli/command_line.py` — the `Cmd`-based shell machinery: docstring
  normalisation (`trim`), exception handling around command dispatch
  (`onecmd` / `handle_exception` / `auto_cmdloop`), and quit propagation
  through nested shells.

Python dicts are modelled as insertion-ordered association lists, exceptions
as an explicit `PyExc` value threaded through `Except`, file writes as an
explicit list of `FileOp` effects, and the blocking network plus the
interactive login prompts as oracles: a list of prepared HTTP answers and a
list of prepared credential rounds that the loops consume.
-/

namespace Cli

/-- Python exceptions that the embedded code can raise. -/
inductive PyExc where
  | attributeError
  | keyError
  | typeError
  | valueError (msg : String)
  | keyboardInterrupt
deriving DecidableEq, Repr

/-- Python dict assignment `d[k] = v` on an insertion-ordered association
list: an existing key keeps its position, a new key is appended at the end. -/
def alSet {α : Type} : List (String × α) → String → α → List (String × α)
  | [], k, v => [(k, v)]
  | (k1, v1) :: rest, k, v =>
    if k1 == k then (k, v) :: rest else (k1, v1) :: alSet rest k v

/-- In-place update of the value stored at a key, a no-op when the key is
absent (used to model mutation through the alias `self.root`; `set_root`
guarantees the aliased path exists). -/
def alModify {α : Type} : List (String × α) → String → (α → α) → List (String × α)
  | [], _, _ => []
  | (k1, v1) :: rest, k, f =>
    if k1 == k then (k1, f v1) :: rest else (k1, v1) :: alModify rest k f

/-- One per-gateway scope: the string-valued entries (such as `jwt`) that
`GatewayConfig.set` writes. -/
abbrev Scope := List (String × String)

/-- The value of a top-level config entry such as `config['gateways']`:
gateway name to scope. -/
abbrev GwsMap := List (String × Scope)

/-- The whole configuration tree loaded from `~/.moziot-cli.json`. -/
abbrev ConfigMap := List (String × GwsMap)

/-- `GatewayConfig` from `cli/gateway.py`.  `root` models the attribute
`self.root`: `none` until the first `set_root` call (the source's `__init__`
never assigns it), afterwards the path `(key, value)` selected inside
`config`, standing for the Python alias `self.config[key][value]`. -/
structure GatewayConfig where
  filename : String
  config : ConfigMap
  dirty : Bool
  root : Option (String × String)
deriving DecidableEq, Repr

/-- `GatewayConfig.__init__`: load the file if readable (`loaded = none`
models a missing or unparsable file, yielding the empty document), ensure a
`gateways` key, clear the dirty flag.  No assignment to `root`. -/
def GatewayConfig.init (filename : String) (loaded : Option ConfigMap) : GatewayConfig :=
  let cfg := loaded.getD []
  let cfg := if (cfg.lookup "gateways").isSome then cfg else alSet cfg "gateways" []
  ⟨filename, cfg, false, none⟩

/-- `GatewayConfig.get`: `self.root[key]` if present else `''`.  Reading
`self.root` before any `set_root` raises `AttributeError` in the source
because `__init__` never creates the attribute. -/
def GatewayConfig.get (c : GatewayConfig) (key : String) : Except PyExc String :=
  match c.root with
  | none => .error .attributeError
  | some (a, b) =>
    match (c.config.lookup a).bind (fun m => m.lookup b) with
    | none => .error .keyError
    | some scope => .ok ((scope.lookup key).getD "")

/-- `GatewayConfig.set_root`: `self.config[key]` raises `KeyError` when the
key is absent; otherwise create `config[key][value] = {}` when missing and
select it as the current scope.  The dirty flag is not touched. -/
def GatewayConfig.set_root (c : GatewayConfig) (key value : String) :
    Except PyExc GatewayConfig :=
  match c.config.lookup key with
  | none => .error .keyError
  | some m =>
    let m2 := if (m.lookup value).isSome then m else alSet m value []
    .ok { c with config := alSet c.config key m2, root := some (key, value) }

/-- `GatewayConfig.set`: mark dirty and write through the selected scope.
With no scope selected the source raises `AttributeError` on `self.root`
(after having already set the dirty flag; no claim depends on that partial
state, so the error result carries no state). -/
def GatewayConfig.set (c : GatewayConfig) (key value : String) :
    Except PyExc GatewayConfig :=
  match c.root with
  | none => .error .attributeError
  | some (a, b) =>
    .ok { c with
          dirty := true,
          config := alModify c.config a (fun m => alModify m b (fun s => alSet s key value)) }

/-- A file-system effect performed by `save`.  Serialization is left
abstract: the written content is the configuration tree itself. -/
inductive FileOp where
  | write (path : String) (content : ConfigMap)
  | rename (src dst : String)
deriving DecidableEq, Repr

/-- `GatewayConfig.save`: nothing when clean; when dirty, dump to
`filename + '.tmp'`, rename over `filename`, clear the flag. -/
def GatewayConfig.save (c : GatewayConfig) : List FileOp × GatewayConfig :=
  if c.dirty then
    ([.write (c.filename ++ ".tmp") c.config, .rename (c.filename ++ ".tmp") c.filename],
     { c with dirty := false })
  else ([], c)

/-- The `Gateway` HTTP client state: base URL, the shared session config and
the request headers dict. -/
structure Gateway where
  gateway_url : String
  config : GatewayConfig
  headers : List (String × String)
deriving DecidableEq, Repr

/-- `Gateway.set_jwt`: store the token under `jwt` in the selected scope and
install the bearer header. -/
def Gateway.set_jwt (g : Gateway) (jwt : String) : Except PyExc Gateway :=
  (g.config.set "jwt" jwt).map fun c =>
    { g with
      config := c,
      headers := alSet g.headers "Authorization" ("Bearer " ++ jwt) }

/-- `Gateway.__init__`: default headers, then install the bearer header when
the selected scope already holds a non-empty `jwt` (Python truthiness of the
string returned by `config.get('jwt')`). -/
def Gateway.init (gateway_url : String) (config : GatewayConfig) : Except PyExc Gateway :=
  let g : Gateway :=
    ⟨gateway_url, config,
     [("Content-Type", "application/json"), ("Accept", "application/json")]⟩
  match config.get "jwt" with
  | .error e => .error e
  | .ok jwt => if jwt ≠ "" then g.set_jwt jwt else .ok g

/-! ### The HTTP request / login loops of `Gateway.get`, `Gateway.put`,
`Gateway.login`.

The blocking network and the interactive prompts are oracles: `getLoop`
consumes one prepared `HttpAnswer` per loop iteration of the source's
`while True`, and `loginLoop` consumes one prepared `LoginTry` per round of
the credential prompt.  Running off the end of an oracle means the trace was
too short to decide the run (`outOfTrace` / `outOfInput`), not that the
source returns. -/

/-- The outcome of one `requests.get` / `requests.put`: a connection error
or a response with a status code and a body text. -/
inductive HttpAnswer where
  | connError
  | resp (code : Nat) (text : String)
deriving DecidableEq, Repr

/-- The outcome of the `requests.post` inside `login`: on a 200 response,
`jwtField` is the optional `jwt` member of the JSON body (its absence makes
`r.json()['jwt']` raise `KeyError`). -/
inductive LoginAnswer where
  | connError
  | resp (code : Nat) (text : String) (jwtField : Option String)
deriving DecidableEq, Repr

/-- One round of the interactive credential prompt: `none` for `email` or
`password` models Control-D (`EOFError`) at that prompt; `answer` is the
server's reply when both credentials were entered. -/
structure LoginTry where
  email : Option String
  password : Option String
  answer : LoginAnswer
deriving DecidableEq, Repr

/-- What one `login()` invocation returned. -/
inductive LoginRes where
  | success (jwt : String)
  | noCred
  | outOfInput
  | exc (e : PyExc)
deriving DecidableEq, Repr

/-- Result record of `loginLoop`: outcome, updated client state, unconsumed
prompt rounds, number of prompt rounds consumed, number of error messages
logged. -/
structure LoginOut where
  res : LoginRes
  g : Gateway
  rest : List LoginTry
  rounds : Nat
  errors : Nat
deriving DecidableEq, Repr

/-- `Gateway.login`: prompt for email and password (Control-D at either
prompt prints a newline and returns `None`), POST to `/login`; a connection
error is reported and returns `None`; a 200 response stores the token via
`set_jwt` and returns it; any other response logs `Login failed` and loops
back to the prompts. -/
def loginLoop : Gateway → List LoginTry → LoginOut
  | g, [] => ⟨.outOfInput, g, [], 0, 0⟩
  | g, t :: ts =>
    match t.email with
    | none => ⟨.noCred, g, ts, 1, 0⟩
    | some _ =>
      match t.password with
      | none => ⟨.noCred, g, ts, 1, 0⟩
      | some _ =>
        match t.answer with
        | .connError => ⟨.noCred, g, ts, 1, 1⟩
        | .resp code _text jwtField =>
          if code == 200 then
            match jwtField with
            | none => ⟨.exc .keyError, g, ts, 1, 0⟩
            | some jwt =>
              match g.set_jwt jwt with
              | .ok g2 => ⟨.success jwt, g2, ts, 1, 0⟩
              | .error e => ⟨.exc e, g, ts, 1, 0⟩
          else
            let r := loginLoop g ts
            ⟨r.res, r.g, r.rest, r.rounds + 1, r.errors + 1⟩

/-- What one `get()` / `put()` call returned: `got (some (code, text))` for a
200 response, `got none` for the source's `return` with no value
(connection error, 404, or a reported non-401 failure). -/
inductive GetRes where
  | got (r : Option (Nat × String))
  | outOfTrace
  | exc (e : PyExc)
deriving DecidableEq, Repr

/-- Result record of `getLoop` / `putLoop`: outcome, updated client state,
unconsumed login rounds, number of `login()` invocations, number of error
messages logged. -/
structure GetOut where
  res : GetRes
  g : Gateway
  tries : List LoginTry
  logins : Nat
  errors : Nat
deriving DecidableEq, Repr

/-- `Gateway.get`: issue the request; connection error is reported and the
call returns; 200 returns the response; 404 returns nothing; any other
non-401 status is reported and the call returns; a 401 invokes `login()`
(its return value is ignored) and the loop reissues the request. -/
def getLoop : Gateway → List HttpAnswer → List LoginTry → GetOut
  | g, [], tries => ⟨.outOfTrace, g, tries, 0, 0⟩
  | g, a :: as, tries =>
    match a with
    | .connError => ⟨.got none, g, tries, 0, 1⟩
    | .resp code text =>
      if code == 200 then ⟨.got (some (code, text)), g, tries, 0, 0⟩
      else if code == 404 then ⟨.got none, g, tries, 0, 0⟩
      else if code != 401 then ⟨.got none, g, tries, 0, 1⟩
      else
        let lo := loginLoop g tries
        match lo.res with
        | .exc e => ⟨.exc e, lo.g, lo.rest, 1, lo.errors⟩
        | _ =>
          let r := getLoop lo.g as lo.rest
          ⟨r.res, r.g, r.tries, r.logins + 1, lo.errors + r.errors⟩

/-- `Gateway.put`: the source duplicates the body of `get` verbatim (down to
the `GET failed` error message), with `requests.put` in place of
`requests.get`. -/
def putLoop : Gateway → List HttpAnswer → List LoginTry → GetOut
  | g, [], tries => ⟨.outOfTrace, g, tries, 0, 0⟩
  | g, a :: as, tries =>
    match a with
    | .connError => ⟨.got none, g, tries, 0, 1⟩
    | .resp code text =>
      if code == 200 then ⟨.got (some (code, text)), g, tries, 0, 0⟩
      else if code == 404 then ⟨.got none, g, tries, 0, 0⟩
      else if code != 401 then ⟨.got none, g, tries, 0, 1⟩
      else
        let lo := loginLoop g tries
        match lo.res with
        | .exc e => ⟨.exc e, lo.g, lo.rest, 1, lo.errors⟩
        | _ =>
          let r := putLoop lo.g as lo.rest
          ⟨r.res, r.g, r.tries, r.logins + 1, lo.errors + r.errors⟩

/-- The number of consecutive 401 responses at the head of an answer trace:
exactly the iterations on which the request loops invoke `login()`. -/
def leading401s : List HttpAnswer → Nat
  | [] => 0
  | .connError :: _ => 0
  | .resp code _ :: as => if code == 401 then leading401s as + 1 else 0

/-! ### Command dispatch and exception handling (`CommandLineBase.onecmd`,
`handle_exception`, `auto_cmdloop_internal`) and the argument-checking
command handlers of `cli/command_line.py`. -/

/-- Python `str` whitespace for `split()`/`strip()`/`lstrip()`/`rstrip()`
(ASCII part). -/
def isPySpace (c : Char) : Bool :=
  c == ' ' || c == '\t' || c == '\n' || c == '\r' || c == '\x0b' || c == '\x0c'

/-- The shell state that dispatch touches: the output sink's error counter,
the process-wide quitting flag, and `cmd_stack[0].filename` (set only when
the outermost shell is driven from a command file). -/
structure DState where
  errorCount : Nat
  quitting : Bool
  baseFilename : Option String
deriving DecidableEq, Repr

/-- What a `do_xxx` handler did: return a value (`none` models Python
`None`), or raise. -/
inductive HandlerOut where
  | ret (stop : Option Bool)
  | raises (e : PyExc)
deriving DecidableEq, Repr

/-- Python `line.split()` with no separator: split on whitespace runs,
producing no empty tokens. -/
def pySplitAux : List Char → List Char → List String
  | [], acc => if acc.isEmpty then [] else [⟨acc.reverse⟩]
  | c :: rest, acc =>
    if isPySpace c then
      if acc.isEmpty then pySplitAux rest []
      else ⟨acc.reverse⟩ :: pySplitAux rest []
    else pySplitAux rest (c :: acc)

/-- Python `line.split()` on a string. -/
def pySplit (line : String) : List String := pySplitAux line.data []

/-- `CommandLineBase.handle_exception`: when the outermost shell was built
from a command file the error is fatal (reported, quitting set, `True`
returned); otherwise the error is reported through the sink and `None` is
returned. -/
def handle_exception (st : DState) : Option Bool × DState :=
  match st.baseFilename with
  | some _ => (some true, { st with errorCount := st.errorCount + 1, quitting := true })
  | none => (none, { st with errorCount := st.errorCount + 1 })

/-- The `try ... except ValueError` around `Cmd.onecmd` in
`CommandLineBase.onecmd`: a `ValueError` goes to `handle_exception`, any
other exception propagates. -/
def onecmdRun (h : HandlerOut) (st : DState) : Except PyExc (Option Bool) × DState :=
  match h with
  | .ret b => (.ok b, st)
  | .raises (.valueError _) =>
    let r := handle_exception st
    (.ok r.1, r.2)
  | .raises e => (.error e, st)

/-- The five handlers that validate their argument count.  The behaviour on
a correct count (entering a nested shell, issuing the HTTP request, ...) is
supplied as the continuation `k`, since only the wrong-count path matters to
dispatch. -/
inductive ArgCmd where
  | gateway
  | device
  | thing
  | bind
  | read
deriving DecidableEq, Repr

/-- `do_gateway` / `do_device` / `do_thing` / `do_bind` / `do_read`: split
the line and raise `ValueError` on a wrong argument count, with the source's
message (including the `argument1` typo of `do_gateway`). -/
def dispatchArgCmd (c : ArgCmd) (line : String) (k : List String → HandlerOut) :
    HandlerOut :=
  let args := pySplit line
  match c with
  | .gateway =>
    if args.length != 1 then
      .raises (.valueError ("Expecting 1 argument1, found " ++ toString args.length))
    else k args
  | .device =>
    if args.length != 1 then
      .raises (.valueError ("Expecting 1 argument, found " ++ toString args.length))
    else k args
  | .thing =>
    if args.length != 1 then
      .raises (.valueError ("Expecting 1 argument, found " ++ toString args.length))
    else k args
  | .bind =>
    if args.length != 2 then
      .raises (.valueError ("Expecting 2 arguments, found " ++ toString args.length))
    else k args
  | .read =>
    if args.length < 3 then
      .raises (.valueError ("Expecting 2 or more arguments, found " ++ toString args.length))
    else k args

/-- Whether `line` has the wrong argument count for the handler. -/
def wrongCount (c : ArgCmd) (line : String) : Bool :=
  match c with
  | .gateway => (pySplit line).length != 1
  | .device => (pySplit line).length != 1
  | .thing => (pySplit line).length != 1
  | .bind => (pySplit line).length != 2
  | .read => decide ((pySplit line).length < 3)

/-- `GatewayCommandLine.do_devices`: it calls `self.gateway.devices()`
directly (not the `devices()` helper that reports the `None` case) and
evaluates `len(devices)`, so a query that yielded no result raises
`TypeError`; otherwise the sorted ids are printed and `None` is returned. -/
def do_devices (remote : Option (List String)) : HandlerOut :=
  match remote with
  | none => .raises .typeError
  | some _ => .ret none

/-- The `try ... except KeyboardInterrupt` of `auto_cmdloop_internal` around
the command loop, followed by `if quitting: return True`: an interrupt
becomes a quitting stop, any other exception propagates, a normal return
yields the quitting flag. -/
def cmdloopBoundary (r : Except PyExc (Option Bool) × DState) :
    Except PyExc Bool × DState :=
  match r with
  | (.error .keyboardInterrupt, st) => (.ok true, { st with quitting := true })
  | (.error e, st) => (.error e, st)
  | (.ok _, st) => (.ok st.quitting, st)

/-- The outer shell's `onecmd` receiving what `do_device`'s
`cmd_line.auto_cmdloop('')` produced: a normal stop value is returned, a
`ValueError` would go to `handle_exception`, anything else propagates. -/
def outerOnecmd (nested : Except PyExc Bool × DState) :
    Except PyExc (Option Bool) × DState :=
  match nested with
  | (.error (.valueError _), st) =>
    let r := handle_exception st
    (.ok r.1, r.2)
  | (.error e, st) => (.error e, st)
  | (.ok b, st) => (.ok (some b), st)

/-- The full nesting for the `devices` command typed at a device-capable
gateway shell reached from the top shell: inner dispatch, inner loop
boundary, outer `onecmd`, outer loop boundary.  Whatever escapes the outer
boundary reaches the process level (`main` installs no handler). -/
def devicesAtProcessLevel (remote : Option (List String)) (st : DState) :
    Except PyExc Bool × DState :=
  cmdloopBoundary (outerOnecmd (cmdloopBoundary (onecmdRun (do_devices remote) st)))

/-! ### Quit propagation through nested `auto_cmdloop` invocations.

Commands are abstracted to the three behaviours dispatch can have at any
level: `quit` (set the quitting flag, return `True`), a plain command
(return `None`), and a command that enters a nested shell and runs its
`auto_cmdloop('')` on its own input script.  The state records the quitting
flag, the depth of `cmd_stack`, and the total number of input lines read. -/

/-- Global shell-loop state: the `CommandLineBase.quitting` class flag, the
length of `CommandLineBase.cmd_stack`, and a count of lines read from
input. -/
structure QState where
  quitting : Bool
  stack : Nat
  reads : Nat
deriving DecidableEq, Repr

mutual
/-- One input line as dispatch sees it. -/
inductive QLine where
  | quit
  | plain
  | enter (sub : QScript)
/-- The input script a shell reads, line by line. -/
inductive QScript where
  | nil
  | cons (l : QLine) (s : QScript)
end

mutual
/-- Dispatch of one line: `do_quit` sets the flag and returns `True`; a plain
command returns `None` (falsy stop); entering a sub-resource runs the nested
shell's `auto_cmdloop('')` — push onto the stack, run its command loop, pop,
and return `True` exactly when the quitting flag is set (the return value of
`auto_cmdloop_internal`). -/
def onecmdQ : QLine → QState → Bool × QState
  | .quit, st => (true, { st with quitting := true })
  | .plain, st => (false, st)
  | .enter sub, st =>
    let st1 := { st with stack := st.stack + 1 }
    let r := cmdloopQ sub st1
    (r.2.quitting, ⟨r.2.quitting, r.2.stack - 1, r.2.reads⟩)

/-- `Cmd.cmdloop`: read a line, dispatch it, stop when dispatch returned a
truthy stop; end of input (the `EOF` sentinel) stops the loop without
setting the quitting flag. -/
def cmdloopQ : QScript → QState → Bool × QState
  | .nil, st => (true, st)
  | .cons l s, st =>
    let st1 := { st with reads := st.reads + 1 }
    let r := onecmdQ l st1
    if r.1 then (true, r.2) else cmdloopQ s r.2
end

/-- `auto_cmdloop` with an empty initial line: push, run the command loop,
pop, return `True` exactly when quitting (the body of the
`QLine.enter` case of `onecmdQ`, shared by every nesting level). -/
def autoQ (sub : QScript) (st : QState) : Bool × QState :=
  let st1 := { st with stack := st.stack + 1 }
  let r := cmdloopQ sub st1
  (r.2.quitting, ⟨r.2.quitting, r.2.stack - 1, r.2.reads⟩)

/-- A script whose only effective content is one `quit` buried under `n`
levels of nested shells; `junk` is the never-to-be-read input remaining at
every level after the line that descends. -/
def deepLine : Nat → QScript → QLine
  | 0, _ => .quit
  | n + 1, junk => .enter (.cons (deepLine n junk) junk)

/-! ### Docstring formatting: `trim` (the PEP-257 routine at the top of
`cli/command_line.py`) and the detailed-help path of
`CommandLineBase.do_help`. -/

/-- `str.expandtabs()` with the default tab size 8: each tab fills up to the
next multiple-of-8 column; the column restarts after a newline or carriage
return. -/
def expandTabsAux : List Char → Nat → List Char
  | [], _ => []
  | c :: cs, col =>
    if c == '\t' then
      let pad := 8 - col % 8
      List.replicate pad ' ' ++ expandTabsAux cs (col + pad)
    else if c == '\n' || c == '\r' then c :: expandTabsAux cs 0
    else c :: expandTabsAux cs (col + 1)

/-- `str.expandtabs()` on a string. -/
def expandtabs (s : String) : String := ⟨expandTabsAux s.data 0⟩

/-- `str.splitlines()`: break at `\r\n`, `\n` or `\r`, keep no terminators,
and produce no trailing empty line for a terminated final line. -/
def splitLinesAux : List Char → List Char → List String
  | [], acc => if acc.isEmpty then [] else [⟨acc.reverse⟩]
  | '\r' :: '\n' :: rest, acc => ⟨acc.reverse⟩ :: splitLinesAux rest []
  | '\n' :: rest, acc => ⟨acc.reverse⟩ :: splitLinesAux rest []
  | '\r' :: rest, acc => ⟨acc.reverse⟩ :: splitLinesAux rest []
  | c :: rest, acc => splitLinesAux rest (c :: acc)

/-- `str.splitlines()` on a string. -/
def splitlines (s : String) : List String := splitLinesAux s.data []

/-- `str.lstrip()`. -/
def lstrip (s : String) : String := ⟨s.data.dropWhile isPySpace⟩

/-- `str.rstrip()`. -/
def rstrip (s : String) : String := ⟨(s.data.reverse.dropWhile isPySpace).reverse⟩

/-- `str.strip()`. -/
def pyStrip (s : String) : String := lstrip (rstrip s)

/-- The Python slice `line[n:]` (character positions). -/
def dropChars (s : String) (n : Nat) : String := ⟨s.data.drop n⟩

/-- `sys.maxsize` on a 64-bit CPython, the sentinel `trim` starts its
minimum from. -/
def maxsize : Nat := 2 ^ 63 - 1

/-- `len(line) - len(line.lstrip())`: the width of a line's leading
whitespace. -/
def lineIndent (line : String) : Nat := line.length - (lstrip line).length

/-- The `while trimmed and not trimmed[-1]: trimmed.pop()` loop of `trim`. -/
def dropTrailingBlank (l : List String) : List String :=
  (l.reverse.dropWhile (fun s => s == "")).reverse

/-- The `while trimmed and not trimmed[0]: trimmed.pop(0)` loop of `trim`. -/
def dropLeadingBlank (l : List String) : List String :=
  l.dropWhile (fun s => s == "")

/-- `trim(docstring)` from `cli/command_line.py`, the PEP-257 docstring
normaliser: expand tabs, split into lines, fold the minimum indentation of
the non-blank lines after the first starting from the `sys.maxsize`
sentinel, strip the first line and de-indent plus right-strip the rest
(dropping the rest entirely when the sentinel never shrank), remove blank
lines at both ends, and re-join with newlines. -/
def trim (docstring : String) : String :=
  if docstring == "" then ""
  else
    match splitlines (expandtabs docstring) with
    | [] => ""
    | first :: rest =>
      let indent := rest.foldl
        (fun ind line =>
          if lstrip line != "" then min ind (lineIndent line) else ind)
        maxsize
      let trimmed := pyStrip first ::
        (if indent < maxsize then rest.map (fun line => rstrip (dropChars line indent)) else [])
      String.intercalate "\n" (dropLeadingBlank (dropTrailingBlank trimmed))

/-- Modelled from the claim's words, to be compared with `trim`: the common
leading whitespace is the minimum indentation over all lines except the
first (a line holding only whitespace has no indentation to measure and is
skipped; with no measurable line the common indentation is zero), it is
stripped from every line but the first, and leading and trailing blank
lines are removed. -/
def trimSpec (docstring : String) : String :=
  if docstring == "" then ""
  else
    match splitlines (expandtabs docstring) with
    | [] => ""
    | first :: rest =>
      let ind :=
        (((rest.filter (fun l => lstrip l != "")).map lineIndent).min?).getD 0
      let normalized := pyStrip first :: rest.map (fun line => rstrip (dropChars line ind))
      String.intercalate "\n" (dropLeadingBlank (dropTrailingBlank normalized))

/-- `doc.format(command=arg)` for the docstrings of this program: replace
every `{command}` placeholder (left to right, non-overlapping) with the
command's name. -/
def substCmdChars (cmd : List Char) : List Char → List Char
  | '{' :: 'c' :: 'o' :: 'm' :: 'm' :: 'a' :: 'n' :: 'd' :: '}' :: rest =>
    cmd ++ substCmdChars cmd rest
  | c :: rest => c :: substCmdChars cmd rest
  | [] => []

/-- `doc.format(command=arg)` on strings. -/
def substCommand (doc command : String) : String := ⟨substCmdChars command.data doc.data⟩

/-- The detailed-help path of `do_help` for a handler carrying a docstring:
`if doc:` guards on a non-empty docstring, then the placeholder is
substituted and the result of `trim` is written (the surrounding newline of
the `write` call is omitted here); an empty docstring falls through to the
`nohelp` message (`none`). -/
def helpText (doc command : String) : Option String :=
  if doc == "" then none else some (trim (substCommand doc command))

/-! ### Concrete states and inputs used by witnesses and counterexamples. -/

/-- A session as it stands right after `do_gateway` selected the (empty)
scope of gateway `home`. -/
def cfgSel : GatewayConfig :=
  ⟨"/root/.moziot-cli.json", [("gateways", [("home", [])])], false,
   some ("gateways", "home")⟩

/-- A dirtied session holding a token for gateway `home`. -/
def cfgDirty : GatewayConfig :=
  ⟨"/root/.moziot-cli.json", [("gateways", [("home", [("jwt", "T")])])], true,
   some ("gateways", "home")⟩

/-- A freshly loaded session in which gateway `home` is not configured. -/
def cfgNoHome : GatewayConfig :=
  ⟨"/root/.moziot-cli.json", [("gateways", [])], false, none⟩

/-- A client bound to the selected scope of `cfgSel`, before any login. -/
def gwSel : Gateway :=
  ⟨"https://gateway.local", cfgSel,
   [("Content-Type", "application/json"), ("Accept", "application/json")]⟩

/-- A credential round the server accepts, answering with the given token. -/
def tryGood (jwt : String) : LoginTry :=
  ⟨some "user@example.com", some "secret", .resp 200 "" (some jwt)⟩

/-- A credential round the server rejects with a non-200 status. -/
def tryBad : LoginTry :=
  ⟨some "user@example.com", some "wrong", .resp 401 "Invalid credentials" none⟩

/-- A server that answers 401 twice before accepting the request. -/
def trace401x2 : List HttpAnswer :=
  [.resp 401 "Unauthorized", .resp 401 "Unauthorized", .resp 200 "[]"]

/-- `root` points at an existing scope of the tree (always true after
`set_root`, which creates the scope it selects). -/
def rootSelected (c : GatewayConfig) : Prop :=
  ∃ a b m s, c.root = some (a, b) ∧ c.config.lookup a = some m ∧ m.lookup b = some s

/-- A docstring with mixed indentation, a tab, boundary blank lines and a
`{command}` placeholder. -/
def docEx : String :=
  "cli> {command} gateway-name\n\n        Connect to the indicated gateway.\n\tRun {command} once.\n    "

/-! ### Helper lemmas. -/

/-- Dispatching a sub-resource command is exactly an `auto_cmdloop('')` of
the nested shell. -/
theorem onecmdQ_enter (s : QScript) (st : QState) : onecmdQ (.enter s) st = autoQ s st :=
  rfl

/-- Dispatching the line that buries a `quit` under `n` nested shells
returns a stop signal, sets the quitting flag, restores the stack depth and
reads exactly the `n` descending lines plus the `quit`, never the junk. -/
theorem onecmdQ_deepLine (n : Nat) (junk : QScript) (st : QState) :
    onecmdQ (deepLine n junk) st = (true, ⟨true, st.stack, st.reads + n⟩) := by
  induction n generalizing st with
  | zero => simp [deepLine, onecmdQ]
  | succ n ih =>
    simp only [deepLine, onecmdQ, cmdloopQ, ih]
    simp [Prod.mk.injEq, QState.mk.injEq]
    omega

theorem lookup_alSet_self {α : Type} (l : List (String × α)) (k : String) (v : α) :
    (alSet l k v).lookup k = some v := by
  induction l with
  | nil => simp [alSet]
  | cons hd tl ih =>
    obtain ⟨k1, v1⟩ := hd
    by_cases h : k1 = k
    · simp [alSet, h]
    · simp [alSet, h, List.lookup, beq_eq_false_iff_ne.mpr (Ne.symm h), ih]

theorem lookup_alModify_self {α : Type} (l : List (String × α)) (k : String) (f : α → α) :
    (alModify l k f).lookup k = (l.lookup k).map f := by
  induction l with
  | nil => simp [alModify]
  | cons hd tl ih =>
    obtain ⟨k1, v1⟩ := hd
    by_cases h : k1 = k
    · simp [alModify, h, List.lookup]
    · simp [alModify, h, List.lookup, beq_eq_false_iff_ne.mpr (Ne.symm h), ih]

/-- `set` through a selected, existing scope succeeds, and afterwards `get`
on the written key sees the value and the session is dirty. -/
theorem get_after_set (c : GatewayConfig) (a b k v : String) (m : GwsMap) (s : Scope)
    (hroot : c.root = some (a, b)) (ha : c.config.lookup a = some m)
    (hb : m.lookup b = some s) :
    ∃ c2, c.set k v = .ok c2 ∧ c2.get k = .ok v ∧ c2.dirty = true ∧ c2.root = c.root := by
  refine ⟨{ c with
            dirty := true,
            config := alModify c.config a fun mm => alModify mm b fun ss => alSet ss k v },
          ?_, ?_, rfl, rfl⟩
  · simp [GatewayConfig.set, hroot]
  · simp [GatewayConfig.get, hroot, lookup_alModify_self, ha, hb, lookup_alSet_self]

/-! ### Claim theorems. -/

/-- Claim C3 (code bug): the source's `GatewayConfig.__init__` never assigns
`self.root`, so a `get` on a fresh session — before any `set_root` — raises
`AttributeError` for every key instead of returning the empty default the
specification promises (`gateway_names` even relies on such a pre-scope read
when listing gateways at the top shell). -/
theorem get_unscoped_raises (filename : String) (loaded : Option ConfigMap) (key : String) :
    (GatewayConfig.init filename loaded).get key = .error .attributeError := rfl

/-- Claim C5: `save()` writes nothing when the dirty flag is clear; when it
is set, it performs exactly the atomic pair write-to-temp-then-rename and
clears the flag, leaving the tree itself unchanged. -/
theorem save_dirty_contract (c : GatewayConfig) :
    (c.dirty = false → c.save = ([], c)) ∧
    (c.dirty = true →
      c.save = ([.write (c.filename ++ ".tmp") c.config,
                 .rename (c.filename ++ ".tmp") c.filename],
                { c with dirty := false })) := by
  constructor <;> intro h <;> simp [GatewayConfig.save, h]

theorem save_dirty_contract_witness :
    cfgSel.save = ([], cfgSel) ∧
    cfgDirty.save = ([.write ("/root/.moziot-cli.json" ++ ".tmp") cfgDirty.config,
                      .rename ("/root/.moziot-cli.json" ++ ".tmp") "/root/.moziot-cli.json"],
                     { cfgDirty with dirty := false }) :=
  ⟨(save_dirty_contract cfgSel).1 rfl, (save_dirty_contract cfgDirty).2 rfl⟩

/-- Claim C9: `set_root` on an absent sub-scope creates the empty
sub-mapping inside the tree, leaves the dirty flag unchanged, and
consequently a `save()` with no intervening `set` (flag still clear) writes
nothing to the backing store. -/
theorem set_root_keeps_clean (c : GatewayConfig) (key name : String) (m : GwsMap)
    (hg : c.config.lookup key = some m) (habs : m.lookup name = none) :
    ∃ c2, c.set_root key name = .ok c2 ∧
      c2.dirty = c.dirty ∧
      (c2.config.lookup key).bind (fun mm => mm.lookup name) = some [] ∧
      (c.dirty = false → c2.save = ([], c2)) := by
  have hiss : (m.lookup name).isSome = false := by simp [habs]
  refine ⟨{ c with
            config := alSet c.config key (alSet m name []),
            root := some (key, name) },
          ?_, rfl, ?_, ?_⟩
  · simp [GatewayConfig.set_root, hg, hiss]
  · simp [lookup_alSet_self]
  · intro h
    simp [GatewayConfig.save, h]

theorem set_root_keeps_clean_witness :
    ∃ c2, cfgNoHome.set_root "gateways" "home" = .ok c2 ∧
      c2.dirty = cfgNoHome.dirty ∧
      (c2.config.lookup "gateways").bind (fun mm => mm.lookup "home") = some [] ∧
      (cfgNoHome.dirty = false → c2.save = ([], c2)) :=
  set_root_keeps_clean cfgNoHome "gateways" "home" [] rfl rfl

/-- Claim C10: a successful login stores the returned token under `jwt` in
the currently selected session scope (marking the session dirty) and
simultaneously sets the `Authorization` header to `Bearer` plus the token;
and construction installs the same header whenever the selected scope
already holds a non-empty `jwt`. -/
theorem login_stores_and_installs_jwt :
    (∀ g tries t, rootSelected g.config → (loginLoop g tries).res = .success t →
        (loginLoop g tries).g.config.get "jwt" = .ok t ∧
        (loginLoop g tries).g.config.dirty = true ∧
        (loginLoop g tries).g.headers.lookup "Authorization" = some ("Bearer " ++ t)) ∧
    (∀ url c s, c.get "jwt" = .ok s → s ≠ "" →
        ∃ g, Gateway.init url c = .ok g ∧
          g.headers.lookup "Authorization" = some ("Bearer " ++ s)) := by
  constructor
  · intro g tries
    induction tries generalizing g with
    | nil =>
      intro t hroot hsucc
      simp [loginLoop] at hsucc
    | cons t0 ts ih =>
      intro t hroot hsucc
      rcases he : t0.email with _ | e
      · simp [loginLoop, he] at hsucc
      rcases hp : t0.password with _ | p
      · simp [loginLoop, he, hp] at hsucc
      rcases hans : t0.answer with _ | ⟨code, txt, jf⟩
      · simp [loginLoop, he, hp, hans] at hsucc
      cases hcode : (code == 200) with
      | false =>
        simp only [loginLoop, he, hp, hans, hcode, Bool.false_eq_true, if_false] at hsucc ⊢
        exact ih g t hroot hsucc
      | true =>
        rcases hjf : jf with _ | jwt
        · simp [loginLoop, he, hp, hans, hcode, hjf] at hsucc
        obtain ⟨a, b, m, s, hr, ha, hb⟩ := hroot
        obtain ⟨c2, hset, hget, hdirty, hroot2⟩ :=
          get_after_set g.config a b "jwt" jwt m s hr ha hb
        have hjwtres : g.set_jwt jwt = .ok
            { g with config := c2,
                     headers := alSet g.headers "Authorization" ("Bearer " ++ jwt) } := by
          simp [Gateway.set_jwt, hset, Except.map]
        simp only [loginLoop, he, hp, hans, hcode, hjf, if_true, hjwtres] at hsucc ⊢
        obtain rfl : jwt = t := by simpa using hsucc
        exact ⟨hget, hdirty, lookup_alSet_self _ _ _⟩
  · intro url c s hget hs
    rcases hr : c.root with _ | ⟨a, b⟩
    · have hget2 := hget
      simp [GatewayConfig.get, hr] at hget2
    rcases hlook : (c.config.lookup a).bind (fun m => m.lookup b) with _ | scope
    · have hget2 := hget
      simp [GatewayConfig.get, hr, hlook] at hget2
    obtain ⟨m, ha, hb⟩ := Option.bind_eq_some.mp hlook
    obtain ⟨c2, hset, _, _, _⟩ := get_after_set c a b "jwt" s m scope hr ha hb
    refine ⟨{ gateway_url := url, config := c2,
              headers := alSet
                [("Content-Type", "application/json"), ("Accept", "application/json")]
                "Authorization" ("Bearer " ++ s) },
            ?_, lookup_alSet_self _ _ _⟩
    simp [Gateway.init, hget, hs, Gateway.set_jwt, hset, Except.map]

theorem login_stores_and_installs_jwt_witness :
    rootSelected gwSel.config ∧
    (loginLoop gwSel [tryGood "TOK"]).res = .success "TOK" ∧
    (loginLoop gwSel [tryGood "TOK"]).g.config.get "jwt" = .ok "TOK" ∧
    (loginLoop gwSel [tryGood "TOK"]).g.config.dirty = true ∧
    (loginLoop gwSel [tryGood "TOK"]).g.headers.lookup "Authorization" =
      some ("Bearer " ++ "TOK") ∧
    cfgDirty.get "jwt" = .ok "T" ∧
    ∃ g, Gateway.init "https://gateway.local" cfgDirty = .ok g ∧
      g.headers.lookup "Authorization" = some ("Bearer " ++ "T") := by
  have hroot : rootSelected gwSel.config :=
    ⟨"gateways", "home", [("home", [])], [], rfl, rfl, rfl⟩
  have hsucc : (loginLoop gwSel [tryGood "TOK"]).res = .success "TOK" := by decide
  obtain ⟨h1, h2, h3⟩ :=
    login_stores_and_installs_jwt.1 gwSel [tryGood "TOK"] "TOK" hroot hsucc
  obtain ⟨g, hg, hh⟩ :=
    login_stores_and_installs_jwt.2 "https://gateway.local" cfgDirty "T" rfl
      (by decide)
  exact ⟨hroot, hsucc, h1, h2, h3, rfl, g, hg, hh⟩

/-- Claim C1 counterexample: with a server that answers 401, 401, 200 and
credentials that the login endpoint accepts every time, a single `get()`
call invokes the interactive login flow twice — the source's `while True`
loop prompts once per 401, with no bound after the first successful
login. -/
theorem get_two_logins_cex :
    (getLoop gwSel trace401x2 [tryGood "JWT1", tryGood "JWT2"]).logins = 2 ∧
    ¬ (getLoop gwSel trace401x2 [tryGood "JWT1", tryGood "JWT2"]).logins ≤ 1 ∧
    (getLoop gwSel trace401x2 [tryGood "JWT1", tryGood "JWT2"]).res =
      .got (some (200, "[]")) := by
  decide

/-- Claim C1 (amended): within one `get`/`put` call the login flow is
invoked exactly once per 401 response received — after each login
(successful or not) the original request is reissued, so in the particular
case of a 401 answered by a 200 on the retry the call returns the 200
response having prompted exactly once, but further 401s each trigger a
further login, without bound. -/
theorem request_logins_once_per_401 :
    (∀ g tries s b as, (∀ e, (loginLoop g tries).res ≠ .exc e) →
        (getLoop g (.resp 401 s :: .resp 200 b :: as) tries).logins = 1 ∧
        (getLoop g (.resp 401 s :: .resp 200 b :: as) tries).res =
          .got (some (200, b))) ∧
    (∀ g as tries, (∀ e, (getLoop g as tries).res ≠ .exc e) →
        (getLoop g as tries).logins = leading401s as) ∧
    (∀ g as tries, (∀ e, (putLoop g as tries).res ≠ .exc e) →
        (putLoop g as tries).logins = leading401s as) := by
  refine ⟨?_, ?_, ?_⟩
  · intro g tries s b as hexc
    rcases hres : (loginLoop g tries).res with jwt | _ | _ | e <;>
      simp [getLoop, hres]
    exact absurd hres (hexc e)
  · intro g as
    induction as generalizing g with
    | nil => intro tries _; simp [getLoop, leading401s]
    | cons a as ih =>
      intro tries hexc
      rcases a with _ | ⟨code, text⟩
      · simp [getLoop, leading401s]
      by_cases h200 : code = 200
      · subst h200; simp [getLoop, leading401s]
      by_cases h404 : code = 404
      · subst h404; simp [getLoop, leading401s]
      by_cases h401 : code = 401
      · subst h401
        rcases hres : (loginLoop g tries).res with jwt | _ | _ | e
        on_goal 4 => exact absurd (by simp [getLoop, hres]) (hexc e)
        all_goals
          have hexc2 : ∀ e2,
              (getLoop (loginLoop g tries).g as (loginLoop g tries).rest).res ≠
                .exc e2 := by
            intro e2 h2
            exact hexc e2 (by simp [getLoop, hres, h2])
          simp [getLoop, leading401s, hres, ih _ _ hexc2]
      · simp [getLoop, leading401s, h200, h404, h401]
  · intro g as
    induction as generalizing g with
    | nil => intro tries _; simp [putLoop, leading401s]
    | cons a as ih =>
      intro tries hexc
      rcases a with _ | ⟨code, text⟩
      · simp [putLoop, leading401s]
      by_cases h200 : code = 200
      · subst h200; simp [putLoop, leading401s]
      by_cases h404 : code = 404
      · subst h404; simp [putLoop, leading401s]
      by_cases h401 : code = 401
      · subst h401
        rcases hres : (loginLoop g tries).res with jwt | _ | _ | e
        on_goal 4 => exact absurd (by simp [putLoop, hres]) (hexc e)
        all_goals
          have hexc2 : ∀ e2,
              (putLoop (loginLoop g tries).g as (loginLoop g tries).rest).res ≠
                .exc e2 := by
            intro e2 h2
            exact hexc e2 (by simp [putLoop, hres, h2])
          simp [putLoop, leading401s, hres, ih _ _ hexc2]
      · simp [putLoop, leading401s, h200, h404, h401]

theorem request_logins_once_per_401_witness :
    (∀ e, (loginLoop gwSel [tryGood "JWT1"]).res ≠ .exc e) ∧
    (getLoop gwSel [.resp 401 "x", .resp 200 "[]"] [tryGood "JWT1"]).logins = 1 ∧
    (getLoop gwSel [.resp 401 "x", .resp 200 "[]"] [tryGood "JWT1"]).res =
      .got (some (200, "[]")) ∧
    (∀ e, (getLoop gwSel trace401x2 [tryGood "JWT1", tryGood "JWT2"]).res ≠ .exc e) ∧
    (getLoop gwSel trace401x2 [tryGood "JWT1", tryGood "JWT2"]).logins =
      leading401s trace401x2 ∧
    (∀ e, (putLoop gwSel trace401x2 [tryGood "JWT1", tryGood "JWT2"]).res ≠ .exc e) ∧
    (putLoop gwSel trace401x2 [tryGood "JWT1", tryGood "JWT2"]).logins =
      leading401s trace401x2 := by
  have e1 : (loginLoop gwSel [tryGood "JWT1"]).res = .success "JWT1" := by decide
  have e2 : (getLoop gwSel trace401x2 [tryGood "JWT1", tryGood "JWT2"]).res =
      .got (some (200, "[]")) := by decide
  have e3 : (putLoop gwSel trace401x2 [tryGood "JWT1", tryGood "JWT2"]).res =
      .got (some (200, "[]")) := by decide
  have h1 : ∀ e, (loginLoop gwSel [tryGood "JWT1"]).res ≠ .exc e := by
    intro e
    rw [e1]
    simp
  have h2 : ∀ e,
      (getLoop gwSel trace401x2 [tryGood "JWT1", tryGood "JWT2"]).res ≠ .exc e := by
    intro e
    rw [e2]
    simp
  have h3 : ∀ e,
      (putLoop gwSel trace401x2 [tryGood "JWT1", tryGood "JWT2"]).res ≠ .exc e := by
    intro e
    rw [e3]
    simp
  obtain ⟨ha, hb⟩ := request_logins_once_per_401.1 gwSel [tryGood "JWT1"] "x" "[]" [] h1
  exact ⟨h1, ha, hb, h2,
    request_logins_once_per_401.2.1 gwSel trace401x2 [tryGood "JWT1", tryGood "JWT2"] h2,
    h3,
    request_logins_once_per_401.2.2 gwSel trace401x2 [tryGood "JWT1", tryGood "JWT2"] h3⟩

/-- Claim C2 counterexample: when the first submitted credentials draw a
non-200 response, `login()` logs `Login failed` and loops back to the email
prompt — here consuming a second credential round and succeeding — instead
of returning "no credential" after the failure as the claim states. -/
theorem login_reprompts_cex :
    (loginLoop gwSel [tryBad, tryGood "JWT9"]).rounds = 2 ∧
    (loginLoop gwSel [tryBad, tryGood "JWT9"]).res = .success "JWT9" ∧
    (loginLoop gwSel [tryBad, tryGood "JWT9"]).res ≠ .noCred := by
  decide

/-- Claim C2 (amended): when the submitted credentials draw a non-200
response, the flow reports the server's error message (exactly one more
error is logged) and loops back to prompt for credentials again within the
same invocation; it returns "no credential" only on end-of-input at a
prompt or on a connection error. -/
theorem login_failure_loops (g : Gateway) (e p txt : String) (ans : LoginAnswer)
    (ts : List LoginTry) (c : Nat) (j : Option String)
    (hans : ans = .resp c txt j) (hc : c ≠ 200) :
    loginLoop g (⟨some e, some p, ans⟩ :: ts) =
      ⟨(loginLoop g ts).res, (loginLoop g ts).g, (loginLoop g ts).rest,
       (loginLoop g ts).rounds + 1, (loginLoop g ts).errors + 1⟩ := by
  have hcode : (c == 200) = false := by simp [hc]
  subst hans
  simp [loginLoop, hcode]

theorem login_failure_loops_witness :
    (400 : Nat) ≠ 200 ∧
    loginLoop gwSel [⟨some "a@b.c", some "pw", .resp 400 "Invalid" none⟩] =
      ⟨(loginLoop gwSel []).res, (loginLoop gwSel []).g, (loginLoop gwSel []).rest,
       (loginLoop gwSel []).rounds + 1, (loginLoop gwSel []).errors + 1⟩ :=
  ⟨by decide,
   login_failure_loops gwSel "a@b.c" "pw" "Invalid" (.resp 400 "Invalid" none) [] 400 none
     rfl (by decide)⟩

/-- Claim C4 (code bug): `do_devices` evaluates `len(...)` on the raw
result of `gateway.devices()`; when that query yields no result (`None` —
connection error, 404, or a gateway without the debug interface) the
`TypeError` is caught neither by `onecmd` (which catches only `ValueError`)
nor by any `auto_cmdloop_internal` on the stack (which catch only
`KeyboardInterrupt`), so it escapes uncaught to the process level,
contradicting the claim that every command error is reported at the shell
boundary. -/
theorem devices_none_uncaught (st : DState) :
    devicesAtProcessLevel none st = (.error .typeError, st) := rfl

/-- Claim C6: a recognized command with a wrong argument count, dispatched
while the outermost shell is not bound to a source file, records exactly one
error in the output sink and returns Python `None` — a non-stop result, so
the interactive loop continues. -/
theorem wrong_arg_count_one_error (c : ArgCmd) (line : String)
    (k : List String → HandlerOut) (st : DState)
    (hfile : st.baseFilename = none) (hwrong : wrongCount c line = true) :
    onecmdRun (dispatchArgCmd c line k) st =
      (.ok none, { st with errorCount := st.errorCount + 1 }) := by
  cases c <;> simp [wrongCount] at hwrong <;>
    simp [dispatchArgCmd, onecmdRun, hwrong, handle_exception, hfile]

theorem wrong_arg_count_one_error_witness :
    (⟨0, false, none⟩ : DState).baseFilename = none ∧
    wrongCount .gateway "" = true ∧
    onecmdRun (dispatchArgCmd .gateway "" fun _ => .ret none) ⟨0, false, none⟩ =
      (.ok none, ⟨1, false, none⟩) :=
  ⟨rfl, by decide,
   wrong_arg_count_one_error .gateway "" (fun _ => .ret none) ⟨0, false, none⟩ rfl
     (by decide)⟩

/-- Claim C7: a `quit` dispatched at any nesting depth `n` sets the
process-wide quitting flag, and the `auto_cmdloop` of every enclosing shell
returns a stop signal: the invocation at each depth reads exactly one line
(the one that descends, or the `quit` itself), never touching the `junk`
input remaining at any level, and the stack is popped back to its original
depth. -/
theorem quit_collapses_stack (n : Nat) (junk : QScript) (st : QState) :
    autoQ (.cons (deepLine n junk) junk) st =
      (true, ⟨true, st.stack, st.reads + (n + 1)⟩) := by
  simp only [autoQ, cmdloopQ, onecmdQ_deepLine]
  simp [Prod.mk.injEq, QState.mk.injEq]
  omega

/-! ### Lemmas for the docstring normaliser. -/

theorem foldl_min_eq_min? (C : List Nat) :
    ∀ a : Nat, C.foldl min a = (C.min?).elim a (min a) := by
  induction C with
  | nil => intro a; simp [List.min?]
  | cons c cs ih =>
    intro a
    simp only [List.foldl_cons, List.min?_cons', Option.elim_some]
    rw [ih (min a c), ih c]
    cases h : cs.min? with
    | none => simp
    | some m => simp [Nat.min_assoc]

theorem foldl_indent (L : List String) :
    ∀ a : Nat,
      L.foldl (fun ind line => if lstrip line != "" then min ind (lineIndent line) else ind)
        a =
      ((L.filter fun l => lstrip l != "").map lineIndent).foldl min a := by
  induction L with
  | nil => intro a; rfl
  | cons l ls ih =>
    intro a
    cases h : (lstrip l != "") with
    | false =>
      simp only [List.foldl_cons, List.filter_cons, h, Bool.false_eq_true, if_false]
      exact ih a
    | true =>
      simp only [List.foldl_cons, List.filter_cons, h, if_true, List.map_cons]
      exact ih (min a (lineIndent l))

theorem all_space_of_lstrip {s : String} (h : lstrip s = "") :
    ∀ c ∈ s.data, isPySpace c := by
  have h2 : s.data.dropWhile isPySpace = [] := congrArg String.data h
  exact fun c hc => List.dropWhile_eq_nil_iff.mp h2 c hc

theorem rstrip_empty_of_all_space {s : String} (h : ∀ c ∈ s.data, isPySpace c) :
    rstrip s = "" := by
  have h2 : s.data.reverse.dropWhile isPySpace = [] :=
    List.dropWhile_eq_nil_iff.mpr fun c hc => h c (List.mem_reverse.mp hc)
  simp [rstrip, h2]

theorem rstrip_dropChars_empty {s : String} (h : lstrip s = "") (n : Nat) :
    rstrip (dropChars s n) = "" :=
  rstrip_empty_of_all_space fun c hc =>
    all_space_of_lstrip h c (List.drop_subset n s.data hc)

theorem dropWhile_append_all {α : Type} (p : α → Bool) (A B : List α)
    (h : ∀ a ∈ A, p a = true) :
    (A ++ B).dropWhile p = B.dropWhile p := by
  induction A with
  | nil => rfl
  | cons x xs ih =>
    simp only [List.cons_append, List.dropWhile_cons, h x (List.mem_cons_self x xs),
      if_true]
    exact ih fun a ha => h a (List.mem_cons_of_mem _ ha)

theorem dropTrailingBlank_cons_all_blank (x : String) (L : List String)
    (h : ∀ l ∈ L, l = "") :
    dropTrailingBlank (x :: L) = dropTrailingBlank [x] := by
  unfold dropTrailingBlank
  rw [show (x :: L).reverse = L.reverse ++ [x] by simp]
  rw [dropWhile_append_all _ _ _ fun a ha => by
    simp [h a (List.mem_reverse.mp ha)]]
  rw [List.reverse_singleton]

/-- The heart of claim C8: on any line list whose indentation widths stay
below the `sys.maxsize` sentinel (true of every real Python string), the
source's fold-with-sentinel computation agrees with the claim's description
of the normalisation. -/
theorem trimCore_eq (first : String) (rest : List String)
    (hrest : ∀ l ∈ rest, lineIndent l < maxsize) :
    String.intercalate "\n" (dropLeadingBlank (dropTrailingBlank (pyStrip first ::
      (if rest.foldl
            (fun ind line => if lstrip line != "" then min ind (lineIndent line) else ind)
            maxsize < maxsize then
        rest.map fun line =>
          rstrip (dropChars line
            (rest.foldl
              (fun ind line => if lstrip line != "" then min ind (lineIndent line) else ind)
              maxsize))
      else [])))) =
    String.intercalate "\n" (dropLeadingBlank (dropTrailingBlank (pyStrip first ::
      rest.map fun line =>
        rstrip (dropChars line
          ((((rest.filter fun l => lstrip l != "").map lineIndent).min?).getD 0))))) := by
  have hfold := foldl_indent rest maxsize
  have hfold2 := foldl_min_eq_min? ((rest.filter fun l => lstrip l != "").map lineIndent)
    maxsize
  cases hmin : ((rest.filter fun l => lstrip l != "").map lineIndent).min? with
  | none =>
    have hFnil : (rest.filter fun l => lstrip l != "") = [] :=
      List.map_eq_nil_iff.mp (List.min?_eq_none_iff.mp hmin)
    have hblank : ∀ l ∈ rest, lstrip l = "" := by
      intro l hl
      by_contra hne
      have hmem : l ∈ (rest.filter fun l => lstrip l != "") :=
        List.mem_filter.mpr ⟨hl, by simp [hne]⟩
      rw [hFnil] at hmem
      cases hmem
    rw [hfold, hfold2, hmin]
    simp only [Option.elim_none, Option.getD_none, lt_self_iff_false, if_false]
    have hall : ∀ y ∈ rest.map fun line => rstrip (dropChars line 0), y = "" := by
      intro y hy
      obtain ⟨l, hl, rfl⟩ := List.mem_map.mp hy
      exact rstrip_dropChars_empty (hblank l hl) 0
    rw [dropTrailingBlank_cons_all_blank (pyStrip first)
      (rest.map fun line => rstrip (dropChars line 0)) hall]
  | some m =>
    obtain ⟨l, hlF, hlm⟩ := List.mem_map.mp (List.min?_mem min_choice hmin)
    have hlt : m < maxsize := hlm ▸ hrest l (List.mem_filter.mp hlF).1
    rw [hfold, hfold2, hmin]
    simp only [Option.elim_some, Option.getD_some]
    rw [min_eq_right (le_of_lt hlt)]
    simp [hlt]

/-- Claim C8: for a handler with a docstring, the detailed-help output is
the docstring with the `{command}` placeholder replaced by the command name
and indentation normalised exactly as the claim describes: the common
leading whitespace is the minimum indentation over the lines after the
first (whitespace-only lines have no measurable indentation), it is
stripped from every line but the first, and blank boundary lines are
removed.  The hypothesis that every line's indentation stays below
`sys.maxsize` holds for every string CPython can represent. -/
theorem do_help_detail (doc command : String) (hdoc : doc ≠ "")
    (hlen : ∀ l ∈ splitlines (expandtabs (substCommand doc command)),
      lineIndent l < maxsize) :
    helpText doc command = some (trimSpec (substCommand doc command)) := by
  have hbe : (doc == "") = false := by simp [hdoc]
  unfold helpText trim trimSpec
  rw [hbe]
  simp only [Bool.false_eq_true, if_false, Option.some.injEq]
  cases hs : (substCommand doc command == "") with
  | true => simp
  | false =>
    simp only [Bool.false_eq_true, if_false]
    cases hsplit : splitlines (expandtabs (substCommand doc command)) with
    | nil => rfl
    | cons first rest =>
      have hrest : ∀ l ∈ rest, lineIndent l < maxsize := by
        intro l hl
        exact hlen l (by rw [hsplit]; exact List.mem_cons_of_mem _ hl)
      exact trimCore_eq first rest hrest

theorem do_help_detail_witness :
    docEx ≠ "" ∧
    (∀ l ∈ splitlines (expandtabs (substCommand docEx "gateway")),
      lineIndent l < maxsize) ∧
    helpText docEx "gateway" = some (trimSpec (substCommand docEx "gateway")) :=
  ⟨by decide, by decide, do_help_detail docEx "gateway" (by decide) (by decide)⟩

end Cli
